import Mathlib

/-!
Verification of the content-and-photo store in server.js.

The embedding models the parsed JSON document as an association list from
section names to JSON values, the photo gallery as a list of Photo records,
on-disk persistence as an optional raw-data cell, and the uploads directory
as a map from file names to file states.  JavaScript numbers produced by
parseInt are either integers or NaN, so they are modelled as Option Int with
none standing for NaN.  Falsy checks and the logical-or defaulting idiom of
the source are modelled explicitly.
-/

set_option linter.unusedVariables false

namespace EscortStore

/-- Model of a parsed JSON value.  The num payload is none for NaN. -/
inductive JValue : Type where
  | null : JValue
  | bool : Bool → JValue
  | num : Option Int → JValue
  | str : String → JValue
  | arr : List JValue → JValue
  | obj : List (String × JValue) → JValue

/-- JavaScript truthiness of a JSON value: null, false, 0, NaN and the empty
string are falsy; every object and array is truthy. -/
def truthy : JValue → Bool
  | .null => false
  | .bool b => b
  | .num none => false
  | .num (some n) => n != 0
  | .str s => s != ""
  | .arr _ => true
  | .obj _ => true

/-- Own-property read content[name] on the parsed document: some v when the
key is present, none (undefined) when absent. -/
def lookupSection (content : List (String × JValue)) (name : String) : Option JValue :=
  match content with
  | [] => none
  | kv :: rest => if kv.1 = name then some kv.2 else lookupSection rest name

/-- Object.prototype.hasOwnProperty.call(content, name) from the PUT handler. -/
def hasKey (content : List (String × JValue)) (name : String) : Bool :=
  content.any (fun kv => kv.1 == name)

/-- Error kinds surfaced by the section handlers. -/
inductive ApiError : Type where
  | notFound : ApiError
  deriving DecidableEq, Repr

/-- GET /api/content/:section — reads content[name] and answers 404 when the
value is falsy (which includes undefined for an absent key), otherwise
returns the stored value. -/
def getSection (content : List (String × JValue)) (name : String) : Except ApiError JValue :=
  match lookupSection content name with
  | none => .error .notFound
  | some v => if truthy v then .ok v else .error .notFound

/-- The assignment content[name] = v on the parsed document. -/
def setSection (content : List (String × JValue)) (name : String) (v : JValue) :
    List (String × JValue) :=
  content.map (fun kv => if kv.1 = name then (kv.1, v) else kv)

/-- PUT /api/content/:section — 404 unless the section is already an own key
of the document; otherwise overwrites the section wholesale and persists the
updated document, which is returned here. -/
def replaceSection (content : List (String × JValue)) (name : String) (v : JValue) :
    Except ApiError (List (String × JValue)) :=
  if hasKey content name then .ok (setSection content name v) else .error .notFound

/-- The defaultContent object of server.js, transcribed field by field. -/
def defaultContent : List (String × JValue) :=
  [ ("about", .obj
      [ ("tagline", .str "Professional tagline")
      , ("headline", .str "Bold, unapologetic and unforgettable.")
      , ("intro", .str "Use this area for a concise intro blurb. Explain who you are, what you offer, and why clients should want to work with you.")
      , ("paragraphs", .arr
          [ .str "Use this section to tell your story in a little more depth."
          , .str "Mention your personality, boundaries, strengths, and how you want clients to feel." ])
      , ("meta", .obj
          [ ("baseCity", .str "Your City, ST")
          , ("bookingStyle", .str "Pre-booked only")
          , ("sessionLength", .str "1–4 hours (longer by request)")
          , ("note", .str "Screening required for new clients") ])
      , ("tags", .arr
          [ .str "Blunt but kind", .str "Low drama", .str "Straightforward"
          , .str "Respect is non-negotiable" ]) ])
  , ("services", .arr
      [ .obj
          [ ("id", .str "standard"), ("name", .str "Standard session")
          , ("duration", .str "60 minutes"), ("rate", .str "$XXX")
          , ("description", .str "Brief description of what’s included in a standard session: your energy, boundaries, and expectations.") ]
      , .obj
          [ ("id", .str "extended"), ("name", .str "Extended session")
          , ("duration", .str "90–120 minutes"), ("rate", .str "$XXX–$XXX")
          , ("description", .str "Longer time together, slower pace, and space to actually relax.") ]
      , .obj
          [ ("id", .str "evening"), ("name", .str "Evening / long-form booking")
          , ("duration", .str "3+ hours"), ("rate", .str "Custom")
          , ("description", .str "Dinner, events, or longer experiences. Outline your minimum, typical structure, and any special considerations.") ] ])
  , ("availability", .obj
      [ ("weekly", .arr
          [ .obj [ ("label", .str "Mon – Thu"), ("time", .str "Evenings only"), ("status", .str "limited") ]
          , .obj [ ("label", .str "Fri – Sat"), ("time", .str "Afternoon & evening"), ("status", .str "open") ]
          , .obj [ ("label", .str "Sunday"), ("time", .str "By special request"), ("status", .str "unavailable") ] ])
      , ("note", .str "This is just a visual guide. Confirmed times are always shared privately after screening.")
      , ("instructions", .str "Example: For safety and boundaries, I do not meet same-day requests from new clients.") ])
  , ("photos", .arr [])
  , ("contact", .obj
      [ ("email", .str "youremail@example.com")
      , ("preferredFirstContact", .str "Email with basic screening info. No explicit or graphic messages.")
      , ("responseTime", .str "Within 24–48 hours for respectful, complete inquiries.") ]) ]

/-- Raw bytes of the persisted document file: either bytes that parse to a
document, or unparsable bytes. -/
inductive RawData : Type where
  | valid : List (String × JValue) → RawData
  | corrupt : RawData

/-- JSON.parse on the raw file contents. -/
def parseJson : RawData → Option (List (String × JValue))
  | .valid d => some d
  | .corrupt => none

/-- JSON.stringify of a document, producing raw bytes that parse back. -/
def stringifyJson (d : List (String × JValue)) : RawData := .valid d

/-- The readContent helper: storage is none when no file exists.  Missing
file: write the default and return it.  Parsable file: return the parsed
document, storage untouched.  Unparsable file: log, overwrite storage with
the default, return the default.  Returns the document and the new storage
state; no error is ever surfaced. -/
def readContent (storage : Option RawData) :
    List (String × JValue) × Option RawData :=
  match storage with
  | none => (defaultContent, some (stringifyJson defaultContent))
  | some raw =>
    match parseJson raw with
    | some d => (d, some raw)
    | none => (defaultContent, some (stringifyJson defaultContent))

/-- The JavaScript expression a or-else b over possibly-undefined strings:
takes b when a is undefined or the empty string (the only falsy strings). -/
def jsOrString (a b : Option String) : Option String :=
  match a with
  | none => b
  | some s => if s = "" then b else some s

/-- The configured secret: process.env.ADMIN_KEY or-else the placeholder. -/
def adminKeyConfig (envAdminKey : Option String) : String :=
  (jsOrString envAdminKey (some "change-me")).getD "change-me"

/-- The requireAdminKey middleware as a predicate: gathers the candidate from
header or-else query or-else body, rejects a falsy candidate, then compares
with strict equality against the configured secret. -/
def requireAdminKey (adminKey : String) (headerKey queryKey bodyKey : Option String) : Bool :=
  match jsOrString (jsOrString headerKey queryKey) bodyKey with
  | none => false
  | some k => if k = "" then false else k == adminKey

/-- The AuthGate view of requireAdminKey for a single candidate credential. -/
def authorize (adminKey : String) (candidate : Option String) : Bool :=
  requireAdminKey adminKey candidate none none

/-- A photo entry {id, url, label, position}; position is none for NaN. -/
structure Photo : Type where
  id : String
  url : String
  label : String
  position : Option Int
  deriving DecidableEq, Repr

/-- Effective sort key (p.position or-else 0) used by the sort comparator:
NaN is falsy and becomes 0, every other integer is kept (0 maps to 0 either
way). -/
def posKey (p : Photo) : Int := p.position.getD 0

/-- Insertion step of the stable sort by posKey. -/
def insertPhoto (p : Photo) : List Photo → List Photo
  | [] => [p]
  | q :: qs => if posKey p ≤ posKey q then p :: q :: qs else q :: insertPhoto p qs

/-- The stable Array.prototype.sort with comparator
(a.position or-else 0) - (b.position or-else 0), modelled as a stable
insertion sort on the same key. -/
def sortPhotos : List Photo → List Photo
  | [] => []
  | p :: ps => insertPhoto p (sortPhotos ps)

/-- Digit-run accumulator for parseInt: consumes leading decimal digits and
stops at the first non-digit; none when no digit was read. -/
def parseDigits : List Char → Option Nat → Option Nat
  | [], acc => acc
  | c :: cs, acc =>
    if c.isDigit then parseDigits cs (some ((acc.getD 0) * 10 + (c.toNat - 48)))
    else acc

/-- JavaScript parseInt(s, 10): skip leading whitespace, optional sign, read
a leading run of decimal digits, ignore the rest; NaN (none) when no digit
is read. -/
def parseIntJS (s : String) : Option Int :=
  match s.data.dropWhile (fun c => c.isWhitespace) with
  | '-' :: rest => (parseDigits rest none).map (fun n => -(n : Int))
  | '+' :: rest => (parseDigits rest none).map (fun n => (n : Int))
  | rest => (parseDigits rest none).map (fun n => (n : Int))

/-- Result of the POST /api/photos handler: the new photos sequence that was
persisted, and the inserted photo returned in the response body. -/
structure AddPhotoResult : Type where
  photos : List Photo
  photo : Photo
  deriving DecidableEq, Repr

/-- POST /api/photos — builds the photo object from the stored file name and
the form fields (label or-else "Photo"; parseInt of position or-else "0"),
initializes the photos sequence when it is missing or not an array, pushes
the photo and re-sorts the whole sequence by position. -/
def addPhoto (photos : Option (List Photo)) (filename : String)
    (labelField positionField : Option String) : AddPhotoResult :=
  let label := (jsOrString labelField (some "Photo")).getD "Photo"
  let photoObj : Photo :=
    { id := filename
      url := "/uploads/" ++ filename
      label := label
      position := parseIntJS ((jsOrString positionField (some "0")).getD "0") }
  let base := match photos with | none => [] | some l => l
  { photos := sortPhotos (base ++ [photoObj]), photo := photoObj }

/-- GET /api/photos — content.photos or-else the empty sequence. -/
def listPhotos (photos : Option (List Photo)) : List Photo := photos.getD []

/-- State of one path in the uploads directory: absent, or present with a
flag telling whether unlinkSync on it succeeds (false: unlink throws). -/
inductive FileState : Type where
  | absent : FileState
  | present : Bool → FileState
  deriving DecidableEq, Repr

/-- Error outcomes of the DELETE /api/photos/:id handler: a thrown TypeError
when content.photos is undefined, the 404 answer, or a thrown unlink error. -/
inductive RemoveError : Type where
  | typeError : RemoveError
  | notFound : RemoveError
  | unlinkError : RemoveError
  deriving DecidableEq, Repr

/-- Array.prototype.findIndex, returning the lowest matching index. -/
def findIndexP (pred : Photo → Bool) : List Photo → Option Nat
  | [] => none
  | p :: ps => if pred p then some 0 else (findIndexP pred ps).map (fun i => i + 1)

/-- Removal of one file from the uploads directory. -/
def deleteFile (fileSys : String → FileState) (f : String) : String → FileState :=
  fun g => if g = f then .absent else fileSys g

/-- DELETE /api/photos/:id — content.photos.findIndex throws a TypeError when
the photos field is undefined; an unmatched id answers 404; otherwise the
handler stats the file of the matched entry, unlinks it when it exists (an
unlink throw aborts the handler before the splice), then splices the entry
out and persists.  Returns the new photos sequence and uploads directory. -/
def removePhoto (photos : Option (List Photo)) (fileSys : String → FileState)
    (id : String) : Except RemoveError (List Photo × (String → FileState)) :=
  match photos with
  | none => .error .typeError
  | some l =>
    match findIndexP (fun p => p.id == id) l with
    | none => .error .notFound
    | some i =>
      let fileId := ((l[i]?).map Photo.id).getD id
      match fileSys fileId with
      | .absent => .ok (l.take i ++ l.drop (i + 1), fileSys)
      | .present true => .ok (l.take i ++ l.drop (i + 1), deleteFile fileSys fileId)
      | .present false => .error .unlinkError

/-- The uploads-directory state after a successful removePhoto of file f. -/
def fsAfterRemove (fileSys : String → FileState) (f : String) : String → FileState :=
  match fileSys f with
  | .present true => deleteFile fileSys f
  | _ => fileSys

/-- Uploads directory with no files. -/
def fsAllAbsent : String → FileState := fun _ => .absent

/-- Uploads directory where every file exists but unlinkSync throws. -/
def fsAllLocked : String → FileState := fun _ => .present false

/-- Uploads directory where every file exists and unlinkSync succeeds. -/
def fsAllPresent : String → FileState := fun _ => .present true

/-- Sample photo record used in concrete scenarios. -/
def samplePhoto (i : String) (pos : Option Int) : Photo :=
  { id := i, url := "/uploads/" ++ i, label := "Photo", position := pos }

/-- First of two gallery entries sharing one id. -/
def dupPhoto1 : Photo :=
  { id := "dup.jpg", url := "/uploads/dup.jpg", label := "first", position := some 1 }

/-- Second of two gallery entries sharing one id. -/
def dupPhoto2 : Photo :=
  { id := "dup.jpg", url := "/uploads/dup.jpg", label := "second", position := some 2 }

/-- Upload with position 5 into an empty gallery. -/
def demoAdd1 : AddPhotoResult := addPhoto (some []) "a.jpg" none (some "5")

/-- Upload with position 1 after demoAdd1. -/
def demoAdd2 : AddPhotoResult := addPhoto (some demoAdd1.photos) "b.jpg" none (some "1")

/-- Upload with position 3 after demoAdd2. -/
def demoAdd3 : AddPhotoResult := addPhoto (some demoAdd2.photos) "c.jpg" none (some "3")

/-- Membership is preserved by one insertion step of the stable sort. -/
theorem mem_insertPhoto {a p : Photo} {l : List Photo} :
    a ∈ insertPhoto p l ↔ a = p ∨ a ∈ l := by
  induction l with
  | nil => simp [insertPhoto]
  | cons q qs ih =>
    by_cases h : posKey p ≤ posKey q
    · simp [insertPhoto, h]
    · simp [insertPhoto, h, ih]
      tauto

/-- Inserting into a list sorted by posKey keeps it sorted. -/
theorem pairwise_insertPhoto {p : Photo} {l : List Photo}
    (h : l.Pairwise (fun a b => posKey a ≤ posKey b)) :
    (insertPhoto p l).Pairwise (fun a b => posKey a ≤ posKey b) := by
  induction l with
  | nil => simp [insertPhoto]
  | cons q qs ih =>
    rcases List.pairwise_cons.mp h with ⟨hq, hqs⟩
    have hstep : insertPhoto p (q :: qs)
        = if posKey p ≤ posKey q then p :: q :: qs else q :: insertPhoto p qs := rfl
    rw [hstep]
    by_cases hle : posKey p ≤ posKey q
    · rw [if_pos hle]
      refine List.pairwise_cons.mpr ⟨?_, h⟩
      intro b hb
      rcases List.mem_cons.mp hb with rfl | hb
      · exact hle
      · exact le_trans hle (hq b hb)
    · rw [if_neg hle]
      refine List.pairwise_cons.mpr ⟨?_, ih hqs⟩
      intro b hb
      rcases mem_insertPhoto.mp hb with rfl | hb
      · exact le_of_lt (lt_of_not_le hle)
      · exact hq b hb

/-- The modelled gallery sort always yields a sequence sorted by posKey. -/
theorem sortPhotos_pairwise (l : List Photo) :
    (sortPhotos l).Pairwise (fun a b => posKey a ≤ posKey b) := by
  induction l with
  | nil => simp [sortPhotos]
  | cons p ps ih => exact pairwise_insertPhoto ih

/-- One insertion step viewed through a filter on one key value: the inserted
element lands in front of the equal-key elements already present, because it
only moves past strictly smaller keys. -/
theorem filter_insertPhoto (p : Photo) (l : List Photo) (k : Int) :
    (insertPhoto p l).filter (fun q => posKey q == k)
      = if posKey p = k then p :: l.filter (fun q => posKey q == k)
        else l.filter (fun q => posKey q == k) := by
  induction l with
  | nil =>
    by_cases hpk : posKey p = k <;>
      simp [insertPhoto, List.filter_cons, List.filter_nil, hpk, beq_iff_eq]
  | cons q qs ih =>
    have hstep : insertPhoto p (q :: qs)
        = if posKey p ≤ posKey q then p :: q :: qs else q :: insertPhoto p qs := rfl
    rw [hstep]
    by_cases hle : posKey p ≤ posKey q
    · rw [if_pos hle]
      by_cases hpk : posKey p = k <;>
        simp [List.filter_cons, hpk, beq_iff_eq]
    · rw [if_neg hle]
      have hlt : posKey q < posKey p := lt_of_not_le hle
      by_cases hpk : posKey p = k
      · have hqk : ¬ (posKey q = k) := by omega
        simp [List.filter_cons, hpk, hqk, ih, beq_iff_eq]
      · simp [List.filter_cons, hpk, ih, beq_iff_eq]

/-- Stability of the modelled sort: restricted to any single key value the
sorted sequence lists the elements in their original order. -/
theorem sortPhotos_filter (l : List Photo) (k : Int) :
    (sortPhotos l).filter (fun q => posKey q == k)
      = l.filter (fun q => posKey q == k) := by
  induction l with
  | nil => rfl
  | cons p ps ih =>
    by_cases hpk : posKey p = k <;>
      simp [sortPhotos, filter_insertPhoto, hpk, ih, List.filter_cons]

/-- The sorted gallery has exactly the members of the unsorted one. -/
theorem mem_sortPhotos {a : Photo} {l : List Photo} :
    a ∈ sortPhotos l ↔ a ∈ l := by
  induction l with
  | nil => simp [sortPhotos]
  | cons p ps ih => simp [sortPhotos, mem_insertPhoto, ih]

/-- findIndex misses when no element matches. -/
theorem findIndexP_eq_none {pred : Photo → Bool} {l : List Photo}
    (h : ∀ p ∈ l, pred p = false) : findIndexP pred l = none := by
  induction l with
  | nil => rfl
  | cons p ps ih =>
    have hp := h p (List.mem_cons_self p ps)
    simp [findIndexP, hp, ih (fun q hq => h q (List.mem_cons_of_mem p hq))]

/-- findIndex returns the index of the first match. -/
theorem findIndexP_append_first {pred : Photo → Bool} (pre : List Photo) (p : Photo)
    (rest : List Photo) (hpre : ∀ q ∈ pre, pred q = false) (hp : pred p = true) :
    findIndexP pred (pre ++ p :: rest) = some pre.length := by
  induction pre with
  | nil => simp [findIndexP, hp]
  | cons q qs ih =>
    have hq := hpre q (List.mem_cons_self q qs)
    simp [findIndexP, hq, ih (fun r hr => hpre r (List.mem_cons_of_mem q hr))]

/-- Index access at the split point of a decomposed list. -/
theorem getElem?_append_cons_length (pre : List Photo) (p : Photo) (rest : List Photo) :
    (pre ++ p :: rest)[pre.length]? = some p := by
  induction pre with
  | nil => simp
  | cons q qs ih => simpa using ih

/-- Taking up to the split point of a decomposed list. -/
theorem take_append_cons_length (pre : List Photo) (p : Photo) (rest : List Photo) :
    (pre ++ p :: rest).take pre.length = pre := by
  induction pre with
  | nil => rfl
  | cons q qs ih => simp [ih]

/-- Dropping past the split point of a decomposed list. -/
theorem drop_append_cons_length (pre : List Photo) (p : Photo) (rest : List Photo) :
    (pre ++ p :: rest).drop (pre.length + 1) = rest := by
  induction pre with
  | nil => rfl
  | cons q qs ih => simp [ih]

/-- Behavior of the delete handler on a gallery split at the first entry
matching the requested id, by state of the stored binary. -/
theorem removePhoto_found (pre : List Photo) (p : Photo) (rest : List Photo)
    (fileSys : String → FileState) (id : String)
    (hpre : ∀ q ∈ pre, q.id ≠ id) (hp : p.id = id) :
    removePhoto (some (pre ++ p :: rest)) fileSys id
      = match fileSys id with
        | .absent => .ok (pre ++ rest, fileSys)
        | .present true => .ok (pre ++ rest, deleteFile fileSys id)
        | .present false => .error .unlinkError := by
  have hfind : findIndexP (fun q => q.id == id) (pre ++ p :: rest) = some pre.length :=
    findIndexP_append_first pre p rest
      (fun q hq => by simp [hpre q hq]) (by simp [hp])
  have hget := getElem?_append_cons_length pre p rest
  simp only [removePhoto, hfind, hget, Option.map_some', Option.getD_some, hp,
    take_append_cons_length, drop_append_cons_length]

/-- The delete handler answers 404 when no entry matches the id. -/
theorem removePhoto_no_match (l : List Photo) (fileSys : String → FileState)
    (id : String) (h : ∀ p ∈ l, p.id ≠ id) :
    removePhoto (some l) fileSys id = .error .notFound := by
  have hnone : findIndexP (fun p => p.id == id) l = none :=
    findIndexP_eq_none (fun p hp => by simp [h p hp])
  simp [removePhoto, hnone]

/-- Updating an existing key stores the new value under that key. -/
theorem lookup_setSection_self (content : List (String × JValue)) (name : String)
    (v : JValue) (h : hasKey content name = true) :
    lookupSection (setSection content name v) name = some v := by
  induction content with
  | nil => simp [hasKey] at h
  | cons kv rest ih =>
    have hstep : setSection (kv :: rest) name v
        = (if kv.1 = name then (kv.1, v) else kv) :: setSection rest name v := rfl
    rw [hstep]
    by_cases hk : kv.1 = name
    · rw [if_pos hk]
      have : lookupSection ((kv.1, v) :: setSection rest name v) name
          = if kv.1 = name then some v else lookupSection (setSection rest name v) name := rfl
      rw [this, if_pos hk]
    · rw [if_neg hk]
      have h' : hasKey rest name = true := by
        have : hasKey (kv :: rest) name = ((kv.1 == name) || hasKey rest name) := rfl
        rw [this] at h
        simpa [hk] using h
      have hlk : lookupSection (kv :: setSection rest name v) name
          = if kv.1 = name then some kv.2 else lookupSection (setSection rest name v) name := rfl
      rw [hlk, if_neg hk]
      exact ih h'

/-- Updating one key leaves every other key bound as before. -/
theorem lookup_setSection_other (content : List (String × JValue)) (name k : String)
    (v : JValue) (hk : k ≠ name) :
    lookupSection (setSection content name v) k = lookupSection content k := by
  induction content with
  | nil => rfl
  | cons kv rest ih =>
    have hstep : setSection (kv :: rest) name v
        = (if kv.1 = name then (kv.1, v) else kv) :: setSection rest name v := rfl
    rw [hstep]
    by_cases h1 : kv.1 = name
    · rw [if_pos h1]
      have h2 : ¬ (kv.1 = k) := by
        rw [h1]
        exact fun hh => hk hh.symm
      have hlk : lookupSection ((kv.1, v) :: setSection rest name v) k
          = if kv.1 = k then some v else lookupSection (setSection rest name v) k := rfl
      have hrk : lookupSection (kv :: rest) k
          = if kv.1 = k then some kv.2 else lookupSection rest k := rfl
      rw [hlk, hrk, if_neg h2, if_neg h2, ih]
    · rw [if_neg h1]
      have hlk : lookupSection (kv :: setSection rest name v) k
          = if kv.1 = k then some kv.2 else lookupSection (setSection rest name v) k := rfl
      have hrk : lookupSection (kv :: rest) k
          = if kv.1 = k then some kv.2 else lookupSection rest k := rfl
      rw [hlk, hrk, ih]

/-- Updating a key never changes the key sequence of the document. -/
theorem setSection_keys (content : List (String × JValue)) (name : String) (v : JValue) :
    (setSection content name v).map Prod.fst = content.map Prod.fst := by
  induction content with
  | nil => rfl
  | cons kv rest ih =>
    have hstep : setSection (kv :: rest) name v
        = (if kv.1 = name then (kv.1, v) else kv) :: setSection rest name v := rfl
    rw [hstep]
    by_cases h : kv.1 = name
    · rw [if_pos h]
      simpa using ih
    · rw [if_neg h]
      simpa using ih

/-- The configured admin secret is never the empty string, because the
environment value passes through the or-else placeholder default. -/
theorem adminKeyConfig_ne_empty (envAdminKey : Option String) :
    adminKeyConfig envAdminKey ≠ "" := by
  cases envAdminKey with
  | none => simp [adminKeyConfig, jsOrString]
  | some s =>
    by_cases h : s = "" <;> simp [adminKeyConfig, jsOrString, h]

/-- C1: after every addPhoto the photos sequence is sorted ascending by the
effective position (missing or NaN counted as 0), ties keep insertion order
(the filter on each key value lists entries in pre-sort order), and the
three-upload scenario with positions 5, 1, 3 lists the photos in the order
of positions 1, 3, 5. -/
theorem addPhoto_sorted_stable (photos : Option (List Photo)) (filename : String)
    (labelField positionField : Option String) :
    ((addPhoto photos filename labelField positionField).photos).Pairwise
        (fun a b => posKey a ≤ posKey b)
    ∧ (∀ k : Int,
        ((addPhoto photos filename labelField positionField).photos).filter
            (fun q => posKey q == k)
          = (listPhotos photos
              ++ [(addPhoto photos filename labelField positionField).photo]).filter
            (fun q => posKey q == k))
    ∧ (listPhotos (some demoAdd3.photos)).map (fun p => (p.id, p.position))
        = [("b.jpg", some 1), ("c.jpg", some 3), ("a.jpg", some 5)] := by
  refine ⟨?_, ?_, ?_⟩
  · cases photos <;> exact sortPhotos_pairwise _
  · intro k
    cases photos <;> exact sortPhotos_filter _ k
  · rfl

/-- C2 counterexample: on a document whose photos section is absent, the
delete handler throws a TypeError instead of failing with NotFound. -/
theorem removePhoto_absent_photos_counterexample :
    removePhoto none fsAllAbsent "x" = Except.error RemoveError.typeError
    ∧ RemoveError.typeError ≠ RemoveError.notFound := ⟨rfl, by decide⟩

/-- C2 (amended): when the photos sequence is present, removePhoto fails with
NotFound exactly on an unmatched id (an absent photos section throws a
TypeError instead); when exactly one photo has the id and unlinking its
binary does not throw, the id disappears from listPhotos and a repeated
removePhoto fails with NotFound. -/
theorem removePhoto_notFound_and_removal (l : List Photo) (fileSys : String → FileState)
    (id : String) :
    removePhoto none fileSys id = Except.error RemoveError.typeError
    ∧ ((∀ p ∈ l, p.id ≠ id) →
        removePhoto (some l) fileSys id = Except.error RemoveError.notFound)
    ∧ (∀ pre p rest, l = pre ++ p :: rest → (∀ q ∈ pre, q.id ≠ id) → p.id = id →
        l.countP (fun q => q.id == id) = 1 → fileSys id ≠ FileState.present false →
        removePhoto (some l) fileSys id = Except.ok (pre ++ rest, fsAfterRemove fileSys id)
        ∧ (∀ q ∈ listPhotos (some (pre ++ rest)), q.id ≠ id)
        ∧ removePhoto (some (pre ++ rest)) (fsAfterRemove fileSys id) id
            = Except.error RemoveError.notFound) := by
  refine ⟨rfl, fun h => removePhoto_no_match l fileSys id h, ?_⟩
  intro pre p rest hsplit hpre hp hcount hfs
  subst hsplit
  have hp' : (p.id == id) = true := by simp [hp]
  have hc0 : rest.countP (fun q => q.id == id) = 0 := by
    simp [List.countP_append, List.countP_cons, hp'] at hcount
    omega
  have hrest : ∀ q ∈ rest, q.id ≠ id := by
    intro q hq
    have := List.countP_eq_zero.mp hc0 q hq
    simpa using this
  have hnone : ∀ q ∈ pre ++ rest, q.id ≠ id := by
    intro q hq
    rcases List.mem_append.mp hq with hcase | hcase
    · exact hpre q hcase
    · exact hrest q hcase
  have hfound := removePhoto_found pre p rest fileSys id hpre hp
  refine ⟨?_, ?_, ?_⟩
  · rw [hfound]
    cases hcase : fileSys id with
    | absent => simp [fsAfterRemove, hcase]
    | present b =>
      cases b with
      | true => simp [fsAfterRemove, hcase]
      | false => exact absurd hcase hfs
  · intro q hq
    exact hnone q (by simpa [listPhotos] using hq)
  · exact removePhoto_no_match (pre ++ rest) (fsAfterRemove fileSys id) id hnone

/-- C2 witness: concrete one-photo gallery; unmatched id answers NotFound,
the matched id removes the entry, and the repeat answers NotFound. -/
theorem removePhoto_notFound_and_removal_witness :
    removePhoto (some [samplePhoto "a.jpg" (some 0)]) fsAllAbsent "zz"
        = Except.error RemoveError.notFound
    ∧ removePhoto (some [samplePhoto "a.jpg" (some 0)]) fsAllAbsent "a.jpg"
        = Except.ok ([], fsAfterRemove fsAllAbsent "a.jpg")
    ∧ removePhoto (some []) (fsAfterRemove fsAllAbsent "a.jpg") "a.jpg"
        = Except.error RemoveError.notFound := by
  have h1 := (removePhoto_notFound_and_removal [samplePhoto "a.jpg" (some 0)]
      fsAllAbsent "zz").2.1 (by decide)
  have h3 := (removePhoto_notFound_and_removal [samplePhoto "a.jpg" (some 0)]
      fsAllAbsent "a.jpg").2.2 [] (samplePhoto "a.jpg" (some 0)) [] rfl
      (by simp) rfl (by decide) (by decide)
  exact ⟨h1, h3.1, h3.2.2⟩

/-- C3 counterexample: when the stored binary exists but unlinkSync throws,
the delete handler surfaces the error and never reaches the splice, so the
document mutation does not complete. -/
theorem removePhoto_unlink_failure_counterexample :
    removePhoto (some [samplePhoto "a.jpg" (some 0)]) fsAllLocked "a.jpg"
        = Except.error RemoveError.unlinkError
    ∧ (Except.error RemoveError.unlinkError
        : Except RemoveError (List Photo × (String → FileState)))
        ≠ Except.ok ([], deleteFile fsAllLocked "a.jpg") := ⟨rfl, by simp⟩

/-- C3 (amended): absence of the stored binary is swallowed and the mutation
completes; a successful unlink deletes the binary and the mutation
completes; a throwing unlink propagates and the mutation does not happen. -/
theorem removePhoto_unlink_behavior (pre : List Photo) (p : Photo) (rest : List Photo)
    (fileSys : String → FileState) (id : String)
    (hpre : ∀ q ∈ pre, q.id ≠ id) (hp : p.id = id) :
    (fileSys id = FileState.absent →
        removePhoto (some (pre ++ p :: rest)) fileSys id = Except.ok (pre ++ rest, fileSys))
    ∧ (fileSys id = FileState.present true →
        removePhoto (some (pre ++ p :: rest)) fileSys id
          = Except.ok (pre ++ rest, deleteFile fileSys id))
    ∧ (fileSys id = FileState.present false →
        removePhoto (some (pre ++ p :: rest)) fileSys id
          = Except.error RemoveError.unlinkError) := by
  have h := removePhoto_found pre p rest fileSys id hpre hp
  refine ⟨fun hf => ?_, fun hf => ?_, fun hf => ?_⟩ <;> rw [h, hf]

/-- C3 witness: the three unlink outcomes on a concrete one-photo gallery. -/
theorem removePhoto_unlink_behavior_witness :
    removePhoto (some [samplePhoto "a.jpg" (some 0)]) fsAllAbsent "a.jpg"
        = Except.ok ([], fsAllAbsent)
    ∧ removePhoto (some [samplePhoto "a.jpg" (some 0)]) fsAllPresent "a.jpg"
        = Except.ok ([], deleteFile fsAllPresent "a.jpg")
    ∧ removePhoto (some [samplePhoto "a.jpg" (some 0)]) fsAllLocked "a.jpg"
        = Except.error RemoveError.unlinkError := by
  have h1 := removePhoto_unlink_behavior [] (samplePhoto "a.jpg" (some 0)) []
      fsAllAbsent "a.jpg" (by simp) rfl
  have h2 := removePhoto_unlink_behavior [] (samplePhoto "a.jpg" (some 0)) []
      fsAllPresent "a.jpg" (by simp) rfl
  have h3 := removePhoto_unlink_behavior [] (samplePhoto "a.jpg" (some 0)) []
      fsAllLocked "a.jpg" (by simp) rfl
  exact ⟨h1.1 rfl, h2.2.1 rfl, h3.2.2 rfl⟩

/-- C4 counterexample: a document binding the key contact to null makes
getSection answer NotFound even though the key is present, against the
claim that NotFound happens exactly when the key is absent. -/
theorem getSection_falsy_value_counterexample :
    lookupSection [("contact", JValue.null)] "contact" = some JValue.null
    ∧ getSection [("contact", JValue.null)] "contact" = Except.error ApiError.notFound :=
  ⟨rfl, rfl⟩

/-- C4 (amended): getSection succeeds with v exactly when the name is bound
to v in the document and v is truthy; an absent key or a falsy stored value
(null, false, 0, NaN, empty string) yields NotFound. -/
theorem getSection_ok_iff (content : List (String × JValue)) (name : String) (v : JValue) :
    getSection content name = Except.ok v
      ↔ (lookupSection content name = some v ∧ truthy v = true) := by
  constructor
  · intro hv
    unfold getSection at hv
    cases h : lookupSection content name with
    | none =>
      rw [h] at hv
      exact absurd hv (by simp)
    | some w =>
      rw [h] at hv
      have hv' : (if truthy w = true then Except.ok w else Except.error ApiError.notFound)
          = Except.ok v := hv
      by_cases ht : truthy w = true
      · rw [if_pos ht] at hv'
        have hwv : w = v := by injection hv'
        subst hwv
        exact ⟨rfl, ht⟩
      · rw [if_neg ht] at hv'
        exact absurd hv' (by simp)
  · rintro ⟨h, ht⟩
    unfold getSection
    rw [h]
    show (if truthy v = true then Except.ok v else Except.error ApiError.notFound)
        = Except.ok v
    rw [if_pos ht]

/-- C5 counterexample: null is a structurally valid JSON section value, the
replace succeeds, but the subsequent getSection answers NotFound instead of
returning null, so the round trip fails. -/
theorem contact_roundTrip_null_counterexample :
    replaceSection defaultContent "contact" JValue.null
        = Except.ok (setSection defaultContent "contact" JValue.null)
    ∧ getSection (setSection defaultContent "contact" JValue.null) "contact"
        = Except.error ApiError.notFound := ⟨rfl, rfl⟩

/-- C5 (amended): on any document having the contact key, replacing contact
with X and reading it back returns exactly X whenever X is truthy; for falsy
X the replace still succeeds but the read answers NotFound. -/
theorem contact_roundTrip (content : List (String × JValue)) (X : JValue)
    (hk : hasKey content "contact" = true) :
    replaceSection content "contact" X = Except.ok (setSection content "contact" X)
    ∧ (truthy X = true →
        getSection (setSection content "contact" X) "contact" = Except.ok X)
    ∧ (truthy X = false →
        getSection (setSection content "contact" X) "contact"
          = Except.error ApiError.notFound) := by
  have hl := lookup_setSection_self content "contact" X hk
  refine ⟨by simp [replaceSection, hk], ?_, ?_⟩
  · intro ht
    simp [getSection, hl, ht]
  · intro ht
    simp [getSection, hl, ht]

/-- C5 witness: a concrete truthy contact object round-trips through the
default document. -/
theorem contact_roundTrip_witness :
    hasKey defaultContent "contact" = true
    ∧ getSection
        (setSection defaultContent "contact" (JValue.obj [("email", JValue.str "a@b.c")]))
        "contact"
      = Except.ok (JValue.obj [("email", JValue.str "a@b.c")]) :=
  ⟨rfl, (contact_roundTrip defaultContent (JValue.obj [("email", JValue.str "a@b.c")])
      rfl).2.1 rfl⟩

/-- C6: replaceSection fails with NotFound when the name is not already a
key (no implicit creation); otherwise it stores the new value under that
key, leaves every other key bound as before, and keeps the key sequence of
the document unchanged. -/
theorem replaceSection_frame (content : List (String × JValue)) (name : String) (v : JValue) :
    (hasKey content name = false →
        replaceSection content name v = Except.error ApiError.notFound)
    ∧ (hasKey content name = true →
        replaceSection content name v = Except.ok (setSection content name v)
        ∧ lookupSection (setSection content name v) name = some v
        ∧ (∀ k, k ≠ name →
            lookupSection (setSection content name v) k = lookupSection content k)
        ∧ (setSection content name v).map Prod.fst = content.map Prod.fst) := by
  constructor
  · intro h
    simp [replaceSection, h]
  · intro h
    exact ⟨by simp [replaceSection, h],
      lookup_setSection_self content name v h,
      fun k hk => lookup_setSection_other content name k v hk,
      setSection_keys content name v⟩

/-- C6 witness: on the default document, an unknown section is refused and
replacing the about section keeps the key sequence and the contact value. -/
theorem replaceSection_frame_witness :
    hasKey defaultContent "doesNotExist" = false
    ∧ replaceSection defaultContent "doesNotExist" (JValue.obj [])
        = Except.error ApiError.notFound
    ∧ hasKey defaultContent "about" = true
    ∧ (setSection defaultContent "about" (JValue.obj [])).map Prod.fst
        = defaultContent.map Prod.fst
    ∧ lookupSection (setSection defaultContent "about" (JValue.obj [])) "contact"
        = lookupSection defaultContent "contact" :=
  ⟨rfl,
   (replaceSection_frame defaultContent "doesNotExist" (JValue.obj [])).1 rfl,
   rfl,
   ((replaceSection_frame defaultContent "about" (JValue.obj [])).2 rfl).2.2.2,
   ((replaceSection_frame defaultContent "about" (JValue.obj [])).2 rfl).2.2.1 "contact"
     (by decide)⟩

/-- C7: whenever the persisted bytes fail to parse, readContent surfaces no
error: it returns the built-in default document, overwrites storage with the
serialized default, and a subsequent readContent again yields the default. -/
theorem readContent_corruption_resets (raw : RawData) (h : parseJson raw = none) :
    readContent (some raw) = (defaultContent, some (stringifyJson defaultContent))
    ∧ (readContent (readContent (some raw)).2).1 = defaultContent := by
  have h1 : readContent (some raw) = (defaultContent, some (stringifyJson defaultContent)) := by
    simp [readContent, h]
  refine ⟨h1, ?_⟩
  rw [h1]
  rfl

/-- C7 witness: the corrupt raw cell is unparsable and triggers the reset. -/
theorem readContent_corruption_resets_witness :
    parseJson RawData.corrupt = none
    ∧ (readContent (some RawData.corrupt)
        = (defaultContent, some (stringifyJson defaultContent))
      ∧ (readContent (readContent (some RawData.corrupt)).2).1 = defaultContent) :=
  ⟨rfl, readContent_corruption_resets RawData.corrupt rfl⟩

/-- C8 counterexample: a non-numeric position field makes parseInt return
NaN, so the inserted photo does not carry position 0. -/
theorem addPhoto_nonNumeric_position_counterexample :
    (addPhoto (some []) "f.jpg" none (some "abc")).photo.position = none
    ∧ (none : Option Int) ≠ some 0 := ⟨rfl, by decide⟩

/-- C8 (amended): a missing or empty position field yields position 0 in the
inserted photo; a non-numeric position yields NaN in the inserted photo
while sorting with effective position 0; in all cases addPhoto returns the
inserted photo, which appears in the stored photos sequence. -/
theorem addPhoto_position_defaulting (photos : Option (List Photo)) (filename : String)
    (labelField : Option String) :
    (addPhoto photos filename labelField none).photo.position = some 0
    ∧ (addPhoto photos filename labelField (some "")).photo.position = some 0
    ∧ (∀ s, parseIntJS s = none → s ≠ "" →
        (addPhoto photos filename labelField (some s)).photo.position = none
        ∧ posKey (addPhoto photos filename labelField (some s)).photo = 0)
    ∧ (∀ positionField,
        (addPhoto photos filename labelField positionField).photo
          ∈ (addPhoto photos filename labelField positionField).photos) := by
  refine ⟨rfl, rfl, ?_, ?_⟩
  · intro s hs hne
    have hpos : (addPhoto photos filename labelField (some s)).photo.position = none := by
      show parseIntJS ((jsOrString (some s) (some "0")).getD "0") = none
      simp [jsOrString, hne, hs]
    exact ⟨hpos, by simp [posKey, hpos]⟩
  · intro positionField
    cases photos with
    | none => exact mem_sortPhotos.mpr (List.mem_append_right _ (List.mem_singleton_self _))
    | some l => exact mem_sortPhotos.mpr (List.mem_append_right _ (List.mem_singleton_self _))

/-- C8 witness: concrete uploads with a missing, non-numeric and numeric
position field. -/
theorem addPhoto_position_defaulting_witness :
    (addPhoto (some []) "f.jpg" none none).photo.position = some 0
    ∧ (addPhoto (some []) "f.jpg" none (some "abc")).photo.position = none
    ∧ posKey (addPhoto (some []) "f.jpg" none (some "abc")).photo = 0
    ∧ (addPhoto (some []) "f.jpg" none (some "3")).photo
        ∈ (addPhoto (some []) "f.jpg" none (some "3")).photos := by
  have h := addPhoto_position_defaulting (some []) "f.jpg" none
  have h3 := h.2.2.1 "abc" (by rfl) (by decide)
  exact ⟨h.1, h3.1, h3.2, h.2.2.2 (some "3")⟩

/-- C9: against any configured secret (which the env-or-placeholder default
keeps nonempty), authorize succeeds exactly on the candidate equal to the
secret, and the concrete scenario against the secret s3cret rejects the
empty, missing and wrong candidates and accepts the exact one. -/
theorem authorize_exact_equality (envAdminKey : Option String) (candidate : Option String) :
    (authorize (adminKeyConfig envAdminKey) candidate = true
      ↔ candidate = some (adminKeyConfig envAdminKey))
    ∧ authorize (adminKeyConfig (some "s3cret")) none = false
    ∧ authorize (adminKeyConfig (some "s3cret")) (some "") = false
    ∧ authorize (adminKeyConfig (some "s3cret")) (some "wrong") = false
    ∧ authorize (adminKeyConfig (some "s3cret")) (some "s3cret") = true := by
  have hne := adminKeyConfig_ne_empty envAdminKey
  refine ⟨?_, rfl, rfl, rfl, rfl⟩
  cases candidate with
  | none =>
    constructor
    · intro hh
      exact absurd hh (by simp [authorize, requireAdminKey, jsOrString])
    · intro hh
      exact absurd hh (by simp)
  | some k =>
    by_cases hk : k = ""
    · subst hk
      constructor
      · intro hh
        exact absurd hh (by simp [authorize, requireAdminKey, jsOrString])
      · intro hh
        have h0 := Option.some.inj hh
        exact absurd h0.symm hne
    · constructor
      · intro hh
        have hbeq : (k == adminKeyConfig envAdminKey) = true := by
          simpa [authorize, requireAdminKey, jsOrString, hk] using hh
        exact congrArg some (beq_iff_eq.mp hbeq)
      · intro hh
        have hkk : k = adminKeyConfig envAdminKey := Option.some.inj hh
        subst hkk
        simp [authorize, requireAdminKey, jsOrString, hk]

/-- C10: when the gallery is split at its first entry matching the id and at
least two entries match, removePhoto (with a non-throwing unlink) removes
exactly that first entry: the result is the unchanged remainder, its length
is one less and exactly one matching entry is gone, so the remaining
duplicates survive. -/
theorem removePhoto_duplicate_first_only (pre : List Photo) (p : Photo) (rest : List Photo)
    (fileSys : String → FileState) (id : String)
    (hpre : ∀ q ∈ pre, q.id ≠ id) (hp : p.id = id)
    (hdup : 2 ≤ (pre ++ p :: rest).countP (fun q => q.id == id))
    (hfs : fileSys id ≠ FileState.present false) :
    removePhoto (some (pre ++ p :: rest)) fileSys id
        = Except.ok (pre ++ rest, fsAfterRemove fileSys id)
    ∧ (pre ++ rest).length + 1 = (pre ++ p :: rest).length
    ∧ (pre ++ rest).countP (fun q => q.id == id) + 1
        = (pre ++ p :: rest).countP (fun q => q.id == id)
    ∧ 1 ≤ (pre ++ rest).countP (fun q => q.id == id) := by
  have hfound := removePhoto_found pre p rest fileSys id hpre hp
  have hp' : (p.id == id) = true := by simp [hp]
  refine ⟨?_, ?_, ?_, ?_⟩
  · rw [hfound]
    cases hcase : fileSys id with
    | absent => simp [fsAfterRemove, hcase]
    | present b =>
      cases b with
      | true => simp [fsAfterRemove, hcase]
      | false => exact absurd hcase hfs
  · simp only [List.length_append, List.length_cons]
    omega
  · simp [List.countP_append, List.countP_cons, hp']
    omega
  · have hd := hdup
    simp [List.countP_append, List.countP_cons, hp'] at hd ⊢
    omega

/-- C10 witness: a gallery with two entries under one id keeps the second
entry after removePhoto. -/
theorem removePhoto_duplicate_first_only_witness :
    removePhoto (some [dupPhoto1, dupPhoto2]) fsAllAbsent "dup.jpg"
        = Except.ok ([dupPhoto2], fsAfterRemove fsAllAbsent "dup.jpg")
    ∧ ([dupPhoto2] : List Photo).countP (fun q => q.id == "dup.jpg") = 1 := by
  have h := removePhoto_duplicate_first_only [] dupPhoto1 [dupPhoto2] fsAllAbsent "dup.jpg"
      (by simp) rfl (by decide) (by decide)
  exact ⟨h.1, by decide⟩

end EscortStore
